import Mathlib

/-!
Verification development for the Imagen Apex frontend pipeline
(`frontend/App.tsx`, `services/geminiService.ts`, `services/vertexService.ts`).

The TypeScript source is shallowly embedded: React state becomes an explicit
record (`AppState`), each event handler becomes a pure state-transition
function, the asynchronous completion of a network call becomes a separate
transition applied when the promise settles, and the browser primitives used
by `vertexService.ts` (`atob`, the data-URI regex strip, `JSON.stringify`)
are modelled as executable Lean functions over `List Char` / a `Json` value
type.  Machine reals used by the simulated-progress timer are modelled as
exact rationals.
-/

/-- `PipelineStage` from `frontend/types.ts`. -/
inductive PipelineStage where
  | IDLE
  | GENERATING_IMAGE
  | IMAGE_READY
  | CONVERTING_3D
  | COMPLETE
  | ERROR
deriving DecidableEq, Repr

/-- `GeneratedImage` from `frontend/types.ts`: raw base64 plus MIME type. -/
structure GeneratedImage where
  base64 : String
  mimeType : String
deriving DecidableEq, Repr

/--
The React state of the `App` component (`frontend/App.tsx`), lines 14-33,
plus two booleans `pendingGen` / `pendingConv` recording whether a
`generateImageFromText` (resp. `generate3DFromImage`) promise is currently
in flight.  The handlers in the source start such a promise right after
their guards; nothing in `handleReset` touches it, which the flags make
explicit.
-/
structure AppState where
  stage : PipelineStage
  prompt : String
  generatedImage : Option GeneratedImage
  modelUrl : Option String
  error : Option String
  isDemoMode : Bool
  progress : ℚ
  hasApiKey : Bool
  isMixedContent : Bool
  pendingGen : Bool
  pendingConv : Bool
deriving DecidableEq, Repr

/-- Does `l` start with `pre`?  Executable model of JS `String.startsWith`. -/
def listStartsWith : List Char → List Char → Bool
  | _, [] => true
  | [], _ :: _ => false
  | a :: as, b :: bs => a = b && listStartsWith as bs

/-- Does `haystack` contain `needle` as a contiguous run?  Model of JS
`String.includes`. -/
def listHasInfix (needle : List Char) : List Char → Bool
  | [] => listStartsWith [] needle
  | c :: rest => listStartsWith (c :: rest) needle || listHasInfix needle rest

/-- Executable model of JS `String.prototype.trim`: drop leading and
trailing whitespace. -/
def jsTrim (s : String) : String :=
  ⟨((s.data.dropWhile Char.isWhitespace).reverse.dropWhile Char.isWhitespace).reverse⟩

/-- Executable model of JS `String.prototype.toLowerCase` (ASCII case map). -/
def jsToLower (s : String) : String :=
  ⟨s.data.map Char.toLower⟩

/--
Mixed-content detection from the settings `useEffect` (`App.tsx` lines 53-68):
the flag is true exactly when the host is neither `localhost` nor
`127.0.0.1`, the page protocol is `https:`, and the trimmed, lower-cased
endpoint URL starts with `http://`.  It is a pure function of the location
and the configured endpoint; no request is involved.
-/
def computeIsMixedContent (hostname protocol endpointUrl : String) : Bool :=
  let isLocalhost := hostname = "localhost" || hostname = "127.0.0.1"
  let isPageHttps := protocol = "https:"
  let isEndpointHttp := listStartsWith (jsToLower (jsTrim endpointUrl)).data "http://".data
  !isLocalhost && isPageHttps && isEndpointHttp

/--
One tick of the simulated-progress interval while `stage = GENERATING_IMAGE`
(`App.tsx` lines 76-81): `prev >= 95 ? 95 : prev + 5`.
-/
def genProgressTick (p : ℚ) : ℚ :=
  if p ≥ 95 then 95 else p + 5

/--
One tick of the simulated-progress interval while `stage = CONVERTING_3D`
(`App.tsx` lines 84-90), with the source's branch order preserved:
`if (prev >= 90) return prev + 0.05; if (prev >= 95) return 95;
return prev + 0.2;`.
-/
def convProgressTick (p : ℚ) : ℚ :=
  if p ≥ 90 then p + 1/20
  else if p ≥ 95 then (95 : ℚ)
  else p + 1/5

/-- The substring test `errorMessage.includes(needle)` from the source. -/
def strContains (haystack needle : String) : Bool :=
  listHasInfix needle.data haystack.data

/--
`handleReset` (`App.tsx` lines 180-188).  It only calls the React state
setters; in particular it does not hold or abort any `AbortController`, so
the pending-request flags are untouched.
-/
def handleReset (s : AppState) : AppState :=
  { s with
    stage := .IDLE
    prompt := ""
    generatedImage := none
    modelUrl := none
    error := none
    isDemoMode := false
    progress := 0 }

/--
The synchronous part of `handleGenerateImage` (`App.tsx` lines 130-138):
guard on `prompt.trim()`, then enter `GENERATING_IMAGE`, clear the error,
image and model URL, and start the generation request.  The simulated
progress effect (line 74-75) resets progress to 0 on entry to
`GENERATING_IMAGE`.
-/
def genClick (s : AppState) : AppState :=
  if jsTrim s.prompt = "" then s
  else
    { s with
      stage := .GENERATING_IMAGE
      error := none
      generatedImage := none
      modelUrl := none
      isDemoMode := false
      progress := 0
      pendingGen := true }

/--
Resolution of the `generateImageFromText` promise in `handleGenerateImage`
(`App.tsx` lines 140-142): store the result and enter `IMAGE_READY`.  The
progress effect (lines 91-93) snaps progress to 100 on `IMAGE_READY`.
-/
def genSuccess (img : GeneratedImage) (s : AppState) : AppState :=
  { s with
    generatedImage := some img
    stage := .IMAGE_READY
    progress := 100
    pendingGen := false }

/--
Rejection of the `generateImageFromText` promise (`App.tsx` lines 143-151):
record the message, enter `ERROR`, and drop the cached API-key state when
the message mentions a missing entity.
-/
def genFailure (msg : String) (s : AppState) : AppState :=
  let s1 : AppState :=
    { s with
      error := some msg
      stage := .ERROR
      pendingGen := false }
  if strContains msg "Requested entity was not found" then
    { s1 with hasApiKey := false }
  else s1

/--
The synchronous part of `handleConvertTo3D` (`App.tsx` lines 154-160):
guard on a present `generatedImage`, then enter `CONVERTING_3D` and start
the reconstruction request.  The progress effect resets progress to 0 on
entry to `CONVERTING_3D`.
-/
def convClick (s : AppState) : AppState :=
  match s.generatedImage with
  | none => s
  | some _ =>
      { s with
        stage := .CONVERTING_3D
        error := none
        isDemoMode := false
        progress := 0
        pendingConv := true }

/--
Resolution of the `generate3DFromImage` promise (`App.tsx` lines 162-166):
store the object URL and enter `COMPLETE`.  The progress effect snaps
progress to 100 on `COMPLETE`.
-/
def convSuccess (url : String) (s : AppState) : AppState :=
  { s with
    modelUrl := some url
    stage := .COMPLETE
    progress := 100
    pendingConv := false }

/--
The replacement text installed by `handleConvertTo3D` when a mixed-content
page hits a generic fetch failure (`App.tsx` line 172).
-/
def mixedContentBannerMsg : String :=
  "Browser blocked the request. Please see the yellow \"Connection Blocked\" banner at the top of the page."

/--
Rejection of the `generate3DFromImage` promise (`App.tsx` lines 167-177):
when the mixed-content flag is set and the failure looks like a generic
transport failure, the message is replaced by actionable banner guidance;
then record the message and enter `ERROR`.
-/
def convFailure (msg : String) (s : AppState) : AppState :=
  let m :=
    if s.isMixedContent
        && (strContains msg "Failed to fetch" || strContains msg "NetworkError") then
      mixedContentBannerMsg
    else msg
  { s with
    error := some m
    stage := .ERROR
    pendingConv := false }

/-! ### The reconstruction client (`services/vertexService.ts`)

`generate3DFromImage` decodes the `ply` field of the service response:
it strips a `data:` URI head with the regex `/^data:.+;base64,/`, removes
all whitespace (`/\\s/g`), and feeds the rest to the browser `atob`
decoder, turning the resulting binary string into bytes one character code
at a time.  We model bytes as natural numbers below 256 and strings at this
level as `List Char`. -/

/-- The standard base64 alphabet, as used by `btoa`/`atob`. -/
def b64Alphabet : List Char :=
  "ABCDEFGHIJKLMNOPQRSTUVWXYZabcdefghijklmnopqrstuvwxyz0123456789+/".data

/-- The character encoding a 6-bit group `n < 64`. -/
def b64Char (n : ℕ) : Char :=
  b64Alphabet.getD n '?'

/-- The 6-bit value of an alphabet character, `none` for anything else
(including `=`). -/
def b64Val (c : Char) : Option ℕ :=
  b64Alphabet.findIdx? (fun a => a = c)

/--
Canonical (padded) base64 encoding of a byte sequence, three bytes to four
characters — the transport encoding the reconstruction service uses for
the `ply` field.
-/
def encodeB64 : List ℕ → List Char
  | [] => []
  | [a] => [b64Char (a / 4), b64Char (a % 4 * 16), '=', '=']
  | [a, b] => [b64Char (a / 4), b64Char (a % 4 * 16 + b / 16), b64Char (b % 16 * 4), '=']
  | a :: b :: c :: rest =>
      b64Char (a / 4) :: b64Char (a % 4 * 16 + b / 16) ::
      b64Char (b % 16 * 4 + c / 64) :: b64Char (c % 64) :: encodeB64 rest

/--
The browser `atob` decoder (WHATWG forgiving-base64, on input with
whitespace already removed): four characters yield three bytes, a final
group `xx==` yields one byte and `xxx=` two, `=` is accepted only in those
final positions, any character outside the alphabet fails, and a leftover
length of 1 fails.
-/
def atob : List Char → Option (List ℕ)
  | [] => some []
  | [c1, c2] =>
      match b64Val c1, b64Val c2 with
      | some v1, some v2 => some [v1 * 4 + v2 / 16]
      | _, _ => none
  | [c1, c2, c3] =>
      match b64Val c1, b64Val c2, b64Val c3 with
      | some v1, some v2, some v3 => some [v1 * 4 + v2 / 16, v2 % 16 * 16 + v3 / 4]
      | _, _, _ => none
  | c1 :: c2 :: c3 :: c4 :: rest =>
      if c3 = '=' then
        if c4 = '=' ∧ rest = [] then
          match b64Val c1, b64Val c2 with
          | some v1, some v2 => some [v1 * 4 + v2 / 16]
          | _, _ => none
        else none
      else if c4 = '=' then
        if rest = [] then
          match b64Val c1, b64Val c2, b64Val c3 with
          | some v1, some v2, some v3 => some [v1 * 4 + v2 / 16, v2 % 16 * 16 + v3 / 4]
          | _, _, _ => none
        else none
      else
        match b64Val c1, b64Val c2, b64Val c3, b64Val c4, atob rest with
        | some v1, some v2, some v3, some v4, some bs =>
            some ((v1 * 4 + v2 / 16) :: (v2 % 16 * 16 + v3 / 4) :: (v3 % 4 * 64 + v4) :: bs)
        | _, _, _, _, _ => none
  | _ => none

/-- Every character of the alphabet decodes back to its index. -/
theorem b64Val_b64Char : ∀ n < 64, b64Val (b64Char n) = some n := by decide

/-- Alphabet characters are never the padding character. -/
theorem b64Char_ne_pad : ∀ n < 64, b64Char n ≠ '=' := by decide

/--
Round trip at the heart of the decoder: `atob` recovers exactly the bytes
that were transport-encoded, for every byte sequence — no truncation, no
padding bytes.
-/
theorem atob_encodeB64 : ∀ l : List ℕ, (∀ b ∈ l, b < 256) → atob (encodeB64 l) = some l := by
  intro l
  induction l using encodeB64.induct with
  | case1 =>
      intro _
      rfl
  | case2 a =>
      intro h
      have ha : a < 256 := h a (by simp)
      have h1 : a / 4 < 64 := by omega
      have h2 : a % 4 * 16 < 64 := by omega
      have e1 : a / 4 * 4 + a % 4 * 16 / 16 = a := by omega
      simp only [encodeB64, atob, b64Val_b64Char _ h1, b64Val_b64Char _ h2, if_pos rfl,
        and_self, if_true, e1]
  | case3 a b =>
      intro h
      have ha : a < 256 := h a (by simp)
      have hb : b < 256 := h b (by simp)
      have h1 : a / 4 < 64 := by omega
      have h2 : a % 4 * 16 + b / 16 < 64 := by omega
      have h3 : b % 16 * 4 < 64 := by omega
      have e1 : a / 4 * 4 + (a % 4 * 16 + b / 16) / 16 = a := by omega
      have e2 : (a % 4 * 16 + b / 16) % 16 * 16 + b % 16 * 4 / 4 = b := by omega
      simp only [encodeB64, atob, b64Char_ne_pad _ h3, if_false, if_true,
        b64Val_b64Char _ h1, b64Val_b64Char _ h2, b64Val_b64Char _ h3, e1, e2]
  | case4 a b c rest ih =>
      intro h
      have ha : a < 256 := h a (by simp)
      have hb : b < 256 := h b (by simp)
      have hc : c < 256 := h c (by simp)
      have h1 : a / 4 < 64 := by omega
      have h2 : a % 4 * 16 + b / 16 < 64 := by omega
      have h3 : b % 16 * 4 + c / 64 < 64 := by omega
      have h4 : c % 64 < 64 := by omega
      have hrest : atob (encodeB64 rest) = some rest := by
        apply ih
        intro x hx
        exact h x (by simp [hx])
      have e1 : a / 4 * 4 + (a % 4 * 16 + b / 16) / 16 = a := by omega
      have e2 : (a % 4 * 16 + b / 16) % 16 * 16 + (b % 16 * 4 + c / 64) / 4 = b := by omega
      have e3 : (b % 16 * 4 + c / 64) % 4 * 64 + c % 64 = c := by omega
      simp only [encodeB64, atob, b64Char_ne_pad _ h3, b64Char_ne_pad _ h4, if_false,
        b64Val_b64Char _ h1, b64Val_b64Char _ h2, b64Val_b64Char _ h3, b64Val_b64Char _ h4,
        hrest, e1, e2, e3]

/-- Characters matched by the JS `\s` regex class (the ones relevant to
base64 payloads; further exotic Unicode spaces behave identically). -/
def isJsWhitespace (c : Char) : Bool :=
  c = ' ' || c = '\t' || c = '\n' || c = '\r' || c = '\u000B' || c = '\u000C' || c = '\u00A0'

/--
Does the greedy anchored regex `/^data:.+;base64,/` of
`generate3DFromImage` match the first `p` characters of `cs`?  The match
needs `p` at least 14 (`data:` + one middle character + `;base64,`), the
literal `;base64,` right before position `p`, and no line terminator in
the region matched by `.+`.
-/
def matchesDataUriAt (cs : List Char) (p : ℕ) : Bool :=
  decide (14 ≤ p) && decide (p ≤ cs.length)
    && decide ((cs.take p).drop (p - 8) = ";base64,".data)
    && ((cs.drop 5).take (p - 13)).all fun c => decide (c ≠ '\n') && decide (c ≠ '\r')

/--
The end position of the greedy match of `/^data:.+;base64,/`, if any: the
regex is anchored (`cs` must begin with `data:`) and greedy (`.+`
backtracks from the right, so the match ends at the last feasible
position).
-/
def dataUriMatchEnd (cs : List Char) : Option ℕ :=
  if cs.take 5 = "data:".data then
    ((List.range (cs.length + 1)).filter fun p => matchesDataUriAt cs p).max?
  else none

/-- `plyBase64.replace(/^data:.+;base64,/, '')` from `generate3DFromImage`. -/
def stripDataUriHead (cs : List Char) : List Char :=
  match dataUriMatchEnd cs with
  | some p => cs.drop p
  | none => cs

/--
The full clean-up applied to the `ply` field before decoding
(`vertexService.ts`): strip a data-URI head, then remove all whitespace
(`.replace(/\s/g, '')`).
-/
def cleanBase64 (cs : List Char) : List Char :=
  (stripDataUriHead cs).filter fun c => !isJsWhitespace c

/--
Decoding pipeline applied to the `ply` field of a success response:
clean-up followed by `atob`; the byte-at-a-time `charCodeAt` loop of the
source is the identity on the decoded byte list.
-/
def decodePlyField (cs : List Char) : Option (List ℕ) :=
  atob (cleanBase64 cs)

/-- The characters that can occur in a canonical base64 payload. -/
def b64PayloadChars : List Char :=
  b64Alphabet ++ ['=']

/-- Alphabet characters (seen as payload characters) by index. -/
theorem b64Char_mem_payload : ∀ n < 64, b64Char n ∈ b64PayloadChars := by decide

/-- Every character produced by the transport encoder is a payload
character. -/
theorem encodeB64_subset :
    ∀ l : List ℕ, (∀ b ∈ l, b < 256) → ∀ c ∈ encodeB64 l, c ∈ b64PayloadChars := by
  intro l
  induction l using encodeB64.induct with
  | case1 =>
      intro _ c hc
      simp [encodeB64] at hc
  | case2 a =>
      intro h c hc
      have ha : a < 256 := h a (by simp)
      simp only [encodeB64, List.mem_cons, List.not_mem_nil, or_false] at hc
      rcases hc with rfl | rfl | rfl | rfl
      · exact b64Char_mem_payload _ (by omega)
      · exact b64Char_mem_payload _ (by omega)
      · decide
      · decide
  | case3 a b =>
      intro h c hc
      have ha : a < 256 := h a (by simp)
      have hb : b < 256 := h b (by simp)
      simp only [encodeB64, List.mem_cons, List.not_mem_nil, or_false] at hc
      rcases hc with rfl | rfl | rfl | rfl
      · exact b64Char_mem_payload _ (by omega)
      · exact b64Char_mem_payload _ (by omega)
      · exact b64Char_mem_payload _ (by omega)
      · decide
  | case4 a b c rest ih =>
      intro h ch hch
      have ha : a < 256 := h a (by simp)
      have hb : b < 256 := h b (by simp)
      have hc : c < 256 := h c (by simp)
      simp only [encodeB64, List.mem_cons] at hch
      rcases hch with rfl | rfl | rfl | rfl | hmem
      · exact b64Char_mem_payload _ (by omega)
      · exact b64Char_mem_payload _ (by omega)
      · exact b64Char_mem_payload _ (by omega)
      · exact b64Char_mem_payload _ (by omega)
      · exact ih (fun x hx => h x (by simp [hx])) ch hmem

/-- Payload characters are never whitespace, `;`, or `:`. -/
theorem b64PayloadChars_tame :
    ∀ c ∈ b64PayloadChars, isJsWhitespace c = false ∧ c ≠ ';' ∧ c ≠ ':' := by decide

/-- `List.range` keeps exactly one point when filtered to a singleton
predicate. -/
theorem range_filter_eq_single (m k : ℕ) (hk : k < m) :
    ((List.range m).filter fun p => decide (p = k)) = [k] := by
  induction m with
  | zero => omega
  | succ n ih =>
      rw [List.range_succ, List.filter_append]
      rcases Nat.lt_or_ge k n with h | h
      · rw [ih h]
        have : n ≠ k := by omega
        simp [this]
      · have hk' : k = n := by omega
        subst hk'
        have h0 : ((List.range k).filter fun p => decide (p = k)) = [] := by
          rw [List.filter_eq_nil_iff]
          intro a ha
          have : a < k := List.mem_range.mp ha
          simp
          omega
        rw [h0]
        simp

/-- A representative data-URI head, as reconstruction services prepend to
the base64 payload of the `ply` field. -/
def dataUriHead : List Char :=
  "data:model/ply;base64,".data

/-- Splitting the representative head around its components. -/
theorem dataUriHead_split :
    dataUriHead = "data:".data ++ ("model/ply".data ++ ";base64,".data) := by decide

/-- On a payload of base64/whitespace characters prefixed by the
representative head, the greedy regex match ends exactly at position 22. -/
theorem matchesDataUriAt_head_iff (p' : List Char)
    (hch : ∀ c ∈ p', c ∈ b64PayloadChars ∨ isJsWhitespace c = true) (p : ℕ) :
    matchesDataUriAt (dataUriHead ++ p') p = true ↔ p = 22 := by
  have hsemi : ∀ c ∈ p', c ≠ ';' := by
    intro c hc
    rcases hch c hc with h | h
    · exact (b64PayloadChars_tame c h).2.1
    · intro hcs
      subst hcs
      simp [isJsWhitespace] at h
  have hlen22 : dataUriHead.length = 22 := by decide
  constructor
  · intro hm
    simp only [matchesDataUriAt, Bool.and_eq_true, decide_eq_true_eq, List.all_eq_true] at hm
    obtain ⟨⟨⟨h14, hlen⟩, heq⟩, hmid⟩ := hm
    have h1 : (((dataUriHead ++ p').take p).drop (p - 8))[0]? = some ';' := by
      rw [heq]
      rfl
    rw [List.getElem?_drop, List.getElem?_take] at h1
    have hlt : p - 8 + 0 < p := by omega
    rw [if_pos hlt, List.getElem?_append] at h1
    by_cases hcase : p - 8 + 0 < dataUriHead.length
    · rw [if_pos hcase] at h1
      have hdec : ∀ i < 22, dataUriHead[i]? = some ';' → i = 14 := by decide
      have := hdec (p - 8 + 0) (by omega) h1
      omega
    · rw [if_neg hcase] at h1
      obtain ⟨hlt2, hget⟩ := List.getElem?_eq_some.mp h1
      exact absurd rfl (hsemi ';' (hget ▸ List.getElem_mem hlt2))
  · rintro rfl
    simp only [matchesDataUriAt, Bool.and_eq_true, decide_eq_true_eq, List.all_eq_true]
    refine ⟨⟨⟨by omega, ?_⟩, ?_⟩, ?_⟩
    · rw [List.length_append, hlen22]
      omega
    · rw [List.take_left' hlen22]
      decide
    · rw [dataUriHead_split, List.append_assoc,
        List.drop_left' (by decide : ("data:".data : List Char).length = 5),
        List.append_assoc,
        List.take_left' (by decide : ("model/ply".data : List Char).length = 22 - 13)]
      decide
    
/-- The greedy strip removes exactly the representative head. -/
theorem stripDataUriHead_head (p' : List Char)
    (hch : ∀ c ∈ p', c ∈ b64PayloadChars ∨ isJsWhitespace c = true) :
    stripDataUriHead (dataUriHead ++ p') = p' := by
  have hlen22 : dataUriHead.length = 22 := by decide
  have hend : dataUriMatchEnd (dataUriHead ++ p') = some 22 := by
    unfold dataUriMatchEnd
    rw [if_pos]
    · have hfilter :
          ((List.range ((dataUriHead ++ p').length + 1)).filter
            fun p => matchesDataUriAt (dataUriHead ++ p') p) =
          ((List.range ((dataUriHead ++ p').length + 1)).filter
            fun p => decide (p = 22)) := by
        apply List.filter_congr
        intro p _
        by_cases h : p = 22
        · subst h
          simp [(matchesDataUriAt_head_iff p' hch 22).mpr rfl]
        · have hd : (decide (p = 22) : Bool) = false := by simp [h]
          rw [hd, Bool.eq_false_iff]
          intro hm
          exact h ((matchesDataUriAt_head_iff p' hch p).mp hm)
      rw [hfilter, range_filter_eq_single _ 22 (by rw [List.length_append, hlen22]; omega)]
      rfl
    · rw [dataUriHead_split, List.append_assoc,
        List.take_left' (by decide : ("data:".data : List Char).length = 5)]
  unfold stripDataUriHead
  rw [hend]
  exact List.drop_left' hlen22

/-- On a bare payload of base64/whitespace characters the regex does not
match, and the strip is the identity. -/
theorem stripDataUriHead_bare (p' : List Char)
    (hch : ∀ c ∈ p', c ∈ b64PayloadChars ∨ isJsWhitespace c = true) :
    stripDataUriHead p' = p' := by
  have hcolon : ∀ c ∈ p', c ≠ ':' := by
    intro c hc
    rcases hch c hc with h | h
    · exact (b64PayloadChars_tame c h).2.2
    · intro hcs
      subst hcs
      simp [isJsWhitespace] at h
  have hnohead : ¬ (p'.take 5 = "data:".data) := by
    intro heq
    have h1 : (p'.take 5)[4]? = some ':' := by
      rw [heq]
      rfl
    rw [List.getElem?_take, if_pos (by omega)] at h1
    obtain ⟨hlt2, hget⟩ := List.getElem?_eq_some.mp h1
    exact absurd rfl (hcolon ':' (hget ▸ List.getElem_mem hlt2))
  unfold stripDataUriHead dataUriMatchEnd
  rw [if_neg hnohead]

/-! ### A small JSON value model

`generate3DFromImage` inspects the parsed JSON of error responses
(`errorJson.detail` / `.message` / `.error`, JS truthiness included) and
falls back to `JSON.stringify`.  The request body is also built with
`JSON.stringify`. -/

/-- JSON values. -/
inductive Json where
  | null
  | bool (b : Bool)
  | num (n : ℤ)
  | str (s : String)
  | arr (elems : List Json)
  | obj (fields : List (String × Json))

/-- Minimal JSON string escaping (`"` and backslash), enough for the
strings this client produces and consumes. -/
def jsonEscape (s : String) : String :=
  ⟨s.data.flatMap fun c => if c = '"' ∨ c = '\\' then ['\\', c] else [c]⟩

mutual

/-- `JSON.stringify` on the value model. -/
def Json.serialize : Json → String
  | .null => "null"
  | .bool true => "true"
  | .bool false => "false"
  | .num n => toString n
  | .str s => "\"" ++ jsonEscape s ++ "\""
  | .arr elems => "[" ++ Json.serializeElems elems ++ "]"
  | .obj fields => "\x7b" ++ Json.serializeFields fields ++ "\x7d"

/-- Comma-joined serialization of array elements. -/
def Json.serializeElems : List Json → String
  | [] => ""
  | [x] => Json.serialize x
  | x :: xs => Json.serialize x ++ "," ++ Json.serializeElems xs

/-- Comma-joined serialization of object fields. -/
def Json.serializeFields : List (String × Json) → String
  | [] => ""
  | [(k, v)] => "\"" ++ jsonEscape k ++ "\":" ++ Json.serialize v
  | (k, v) :: fs => "\"" ++ jsonEscape k ++ "\":" ++ Json.serialize v ++ "," ++ Json.serializeFields fs

end

/-- JS property access `j.k`: defined on objects, `none` (undefined)
otherwise. -/
def Json.getField : Json → String → Option Json
  | .obj fields, k => (fields.find? fun f => f.1 = k).map Prod.snd
  | _, _ => none

/-- JS truthiness of a property-access result (`undefined`, `null`,
`false`, `0` and `""` are falsy). -/
def jsTruthy : Option Json → Bool
  | none => false
  | some .null => false
  | some (.bool b) => b
  | some (.num n) => decide (n ≠ 0)
  | some (.str s) => decide (s ≠ "")
  | some (.arr _) => true
  | some (.obj _) => true

mutual

/-- JS string conversion `String(v)` as used by template-literal
interpolation. -/
def jsToString : Json → String
  | .null => "null"
  | .bool true => "true"
  | .bool false => "false"
  | .num n => toString n
  | .str s => s
  | .arr elems => jsToStringElems elems
  | .obj _ => "[object Object]"

/-- `Array.prototype.toString`: elements converted and comma-joined. -/
def jsToStringElems : List Json → String
  | [] => ""
  | [x] => jsToString x
  | x :: xs => jsToString x ++ "," ++ jsToStringElems xs

end

/-- JS `String.prototype.substring(0, 200)` on the model. -/
def jsTake (n : ℕ) (s : String) : String :=
  ⟨s.data.take n⟩

/-! ### `generate3DFromImage` (`services/vertexService.ts`) -/

/--
The reconstruction request body built by `generate3DFromImage`
(`vertexService.ts` lines 79-91): the resized image, a white full-select
mask of the same dimensions, and the literal seed 42.  `resizeImage` and
`createWhiteMask` run on a browser canvas, so they enter the model as
parameters; the request shape does not depend on their internals.
-/
def buildReconstructionBody (resizeImage : String → ℕ → ℕ → String)
    (createWhiteMask : ℕ → ℕ → String) (imageBase64 : String) : Json :=
  Json.obj
    [("image", Json.str (resizeImage imageBase64 256 256)),
     ("mask", Json.str (createWhiteMask 256 256)),
     ("seed", Json.num 42)]

/--
What the client can observe of an HTTP error response: the outcome of
`response.json()` (`some` parsed value when the body is valid JSON) and
the raw body text that `response.text()` yields.
-/
structure ErrorBody where
  json? : Option Json
  rawText : String

/--
Error-message extraction for a non-success HTTP status
(`vertexService.ts` lines 95-106): start from `Status <n>`; if the body
parses as JSON take `detail`, else `message`, else `error` (strings
directly, other values stringified), else the whole body stringified; if
the body is not JSON, the raw text truncated to 200 characters when it is
non-empty.
-/
def extractErrorDetail (status : ℕ) (body : ErrorBody) : String :=
  match body.json? with
  | some j =>
      if jsTruthy (j.getField "detail") then jsToString ((j.getField "detail").getD .null)
      else if jsTruthy (j.getField "message") then jsToString ((j.getField "message").getD .null)
      else if jsTruthy (j.getField "error") then
        match (j.getField "error").getD .null with
        | .str s => s
        | v => Json.serialize v
      else Json.serialize j
  | none =>
      if body.rawText = "" then "Status " ++ toString status
      else jsTake 200 body.rawText

/-- The thrown message for a non-success status (line 107). -/
def serverErrorMessage (status : ℕ) (body : ErrorBody) : String :=
  "SAM 3D Server Error: " ++ extractErrorDetail status body

/--
A success-status response as the client observes it: the outcome of
`response.json()` on the body.  (`ok = true` responses go through the
strict parsing path.)
-/
structure SamResponse where
  ok : Bool
  status : ℕ
  json? : Option Json
  rawText : String

/--
What the awaited `fetch` resolves to once the network settles: a response,
a transport failure carried as an error message (`TypeError: Failed to
fetch` and friends), or the `AbortError` injected when the 300-second
abort timer fired first.
-/
inductive FetchOutcome where
  | resp (r : SamResponse)
  | networkError (msg : String)
  | aborted

/-- The hard timeout of `generate3DFromImage`: `setTimeout(() =>
controller.abort(), 300000)`. -/
def reconstructionTimeoutMs : ℕ := 300000

/--
How long the service takes determines what the awaited `fetch` yields:
past 300000 ms the abort timer has fired and the promise rejects with
`AbortError`, otherwise the server's own behaviour (response or transport
failure) comes through.
-/
def fetchWithTimeout (serverDelayMs : ℕ) (serverBehaviour : FetchOutcome) : FetchOutcome :=
  if reconstructionTimeoutMs < serverDelayMs then .aborted else serverBehaviour

/-- The message of the error thrown on `AbortError`
(`vertexService.ts` line 139). -/
def timeoutErrorMessage : String := "3D generation timed out after 5 minutes"

/-- The message thrown when the success body has no truthy `ply` field
(line 117). -/
def missingPlyMessage : String := "API response missing 'ply' field"

/--
Outcome classification of one `generate3DFromImage` call
(`vertexService.ts` lines 57-144), given what the awaited `fetch` yields:
errors on non-success status via `serverErrorMessage`; on success parses
the JSON body, requires a truthy `ply` field, cleans and `atob`-decodes
it into bytes (the result `Blob`'s contents); `AbortError` becomes the
distinct timeout message; other rejections (transport failures, JSON
parse failures, `atob` failures) propagate.  The environment-supplied
texts of those propagated exceptions are abstracted by the `parseFailMsg`
and `atobFailMsg` parameters.
-/
def generate3DFromImage (parseFailMsg atobFailMsg : String) :
    FetchOutcome → Except String (List ℕ)
  | .aborted => .error timeoutErrorMessage
  | .networkError msg => .error msg
  | .resp r =>
      if !r.ok then .error (serverErrorMessage r.status ⟨r.json?, r.rawText⟩)
      else
        match r.json? with
        | none => .error parseFailMsg
        | some j =>
            if !jsTruthy (j.getField "ply") then .error missingPlyMessage
            else
              match (j.getField "ply").getD .null with
              | .str s =>
                  match decodePlyField s.data with
                  | some bytes => .ok bytes
                  | none => .error atobFailMsg
              | _ => .error atobFailMsg

/-! ### Progress-clock arithmetic for the `CONVERTING_3D` interval -/

/-- For the first 450 ticks the `CONVERTING_3D` interval adds 0.2 per
tick. -/
theorem convTick_below (n : ℕ) (hn : n ≤ 450) :
    convProgressTick^[n] (0 : ℚ) = n / 5 := by
  induction n with
  | zero => simp
  | succ m ih =>
      have hm : m ≤ 449 := by omega
      rw [Function.iterate_succ_apply', ih (by omega)]
      unfold convProgressTick
      have h90 : ¬ ((m : ℚ) / 5 ≥ 90) := by
        rw [ge_iff_le, le_div_iff₀ (by norm_num)]
        intro hc
        have : (450 : ℚ) ≤ (m : ℚ) := by linarith
        have : (450 : ℕ) ≤ m := by exact_mod_cast this
        omega
      have h95 : ¬ ((m : ℚ) / 5 ≥ 95) := by
        rw [ge_iff_le, le_div_iff₀ (by norm_num)]
        intro hc
        have : (475 : ℚ) ≤ (m : ℚ) := by linarith
        have : (475 : ℕ) ≤ m := by exact_mod_cast this
        omega
      rw [if_neg h90, if_neg h95]
      push_cast
      ring

/-- From tick 450 on, the first branch of `convProgressTick` fires forever
and adds 0.05 per tick; the 95-cap branch below it is unreachable. -/
theorem convTick_above (k : ℕ) :
    convProgressTick^[450 + k] (0 : ℚ) = 90 + k / 20 := by
  induction k with
  | zero =>
      have h := convTick_below 450 le_rfl
      rw [show (450 : ℕ) + 0 = 450 from rfl, h]
      norm_num
  | succ m ih =>
      have hstep : 450 + (m + 1) = (450 + m) + 1 := by omega
      rw [hstep, Function.iterate_succ_apply', ih]
      unfold convProgressTick
      rw [if_pos]
      · push_cast
        ring
      · have hnn : (0 : ℚ) ≤ (m : ℚ) / 20 := by positivity
        linarith

/-! ### Concrete sample states -/

/-- The initial `useState` values of the `App` component, on a page with a
selected API key and no mixed-content hazard. -/
def initialState : AppState :=
  { stage := .IDLE
    prompt := ""
    generatedImage := none
    modelUrl := none
    error := none
    isDemoMode := false
    progress := 0
    hasApiKey := true
    isMixedContent := false
    pendingGen := false
    pendingConv := false }

/-- A state about to generate: the user has typed a prompt. -/
def promptedState : AppState :=
  { initialState with prompt := "a red apple" }

/-- A sample generation result. -/
def sampleImage : GeneratedImage :=
  { base64 := "Zm9vYmFy", mimeType := "image/png" }

/-! ### The claims -/

/--
Claim C1, counterexample.  `reset()` does not cancel the in-flight
generation request (the request stays pending across `handleReset`), and
when that stale request later succeeds, its completion handler moves the
controller out of `Idle` into `ImageReady` — contradicting the claim that
no stale completion of a previously in-flight call moves it out of `Idle`.
-/
theorem reset_stale_completion_escapes_idle :
    (handleReset (genClick promptedState)).pendingGen = true
    ∧ (handleReset (genClick promptedState)).stage = PipelineStage.IDLE
    ∧ (genSuccess sampleImage (handleReset (genClick promptedState))).stage
        = PipelineStage.IMAGE_READY
    ∧ PipelineStage.IMAGE_READY ≠ PipelineStage.IDLE := by
  refine ⟨?_, ?_, ?_, by decide⟩ <;> decide

/--
Claim C1, amended.  `reset()` returns the controller to `Idle`, discards
the `GeneratedImage`, the `ReconstructionResult` URL, the error and the
progress — but it does not cancel an in-flight request: the pending flags
pass through `handleReset` unchanged, so a stale completion can later move
the controller out of `Idle`.
-/
theorem reset_returns_idle_without_cancelling (s : AppState) :
    (handleReset s).stage = PipelineStage.IDLE
    ∧ (handleReset s).generatedImage = none
    ∧ (handleReset s).modelUrl = none
    ∧ (handleReset s).error = none
    ∧ (handleReset s).progress = 0
    ∧ (handleReset s).pendingGen = s.pendingGen
    ∧ (handleReset s).pendingConv = s.pendingConv := by
  unfold handleReset
  exact ⟨rfl, rfl, rfl, rfl, rfl, rfl, rfl⟩

/--
Claim C2.  From `Idle` with a non-blank prompt, triggering generation and
then observing provider success always lands in `ImageReady` with the
returned image stored; observing provider failure always lands in `Error`
with no `GeneratedImage` stored at all (the click cleared it, and the
failure path never writes it).
-/
theorem generate_success_failure_outcomes (s : AppState) (img : GeneratedImage)
    (msg : String) (_hidle : s.stage = PipelineStage.IDLE)
    (hprompt : jsTrim s.prompt ≠ "") :
    ((genSuccess img (genClick s)).stage = PipelineStage.IMAGE_READY
      ∧ (genSuccess img (genClick s)).generatedImage = some img)
    ∧ ((genFailure msg (genClick s)).stage = PipelineStage.ERROR
      ∧ (genFailure msg (genClick s)).generatedImage = none) := by
  unfold genClick genSuccess genFailure
  rw [if_neg hprompt]
  refine ⟨⟨rfl, rfl⟩, ?_⟩
  by_cases h : strContains msg "Requested entity was not found" = true <;>
    simp [h]

/-- Witness for C2 at a concrete prompt, image and failure message. -/
theorem generate_success_failure_outcomes_witness :
    (genSuccess sampleImage (genClick promptedState)).stage = PipelineStage.IMAGE_READY
    ∧ (genSuccess sampleImage (genClick promptedState)).generatedImage = some sampleImage
    ∧ (genFailure "boom" (genClick promptedState)).stage = PipelineStage.ERROR
    ∧ (genFailure "boom" (genClick promptedState)).generatedImage = none := by
  have h := generate_success_failure_outcomes promptedState sampleImage "boom" rfl
    (by decide)
  exact ⟨h.1.1, h.1.2, h.2.1, h.2.2⟩

/--
Claim C3 names a real bug in the source.  On entry to `Converting3D`
progress is reset to 0 (the effect calls `setProgress(0)`), but the update
function checks `prev >= 90` before the `prev >= 95` cap, so the cap is
dead code: after 450 ticks of +0.2 the value reaches 90, and 200 further
ticks of +0.05 reach exactly 100 while the stage is still `Converting3D` —
the value does not stay strictly below 100.
-/
theorem converting_progress_reaches_100 :
    convProgressTick^[650] (0 : ℚ) = 100
    ∧ ¬ (convProgressTick^[650] (0 : ℚ) < 100) := by
  have h : convProgressTick^[650] (0 : ℚ) = 90 + (200 : ℕ) / 20 := by
    have h0 := convTick_above 200
    rwa [show 450 + 200 = 650 from rfl] at h0
  have h100 : (90 : ℚ) + (200 : ℕ) / 20 = 100 := by norm_num
  exact ⟨h.trans h100, by rw [h.trans h100]; exact lt_irrefl _⟩

/--
Claim C4, counterexample.  When the generation call fails because the
primary model is unavailable, the controller does not fall back to a
secondary model: the failure handler records the message and lands
terminally in `Error`, with no new generation request started.
-/
theorem model_unavailable_is_terminal :
    (genFailure "Model gemini-3-pro-image-preview is not available in your region"
        (genClick promptedState)).stage = PipelineStage.ERROR
    ∧ (genFailure "Model gemini-3-pro-image-preview is not available in your region"
        (genClick promptedState)).pendingGen = false
    ∧ (genFailure "Model gemini-3-pro-image-preview is not available in your region"
        (genClick promptedState)).generatedImage = none := by
  refine ⟨?_, ?_, ?_⟩ <;> decide

/--
Claim C4, amended.  Any generation failure — model unavailability
included — is terminal for the call: the controller transitions to
`Error` storing the message, starts no fallback request, and only
additionally invalidates the cached API-key state when the message
mentions a missing entity.
-/
theorem generation_failure_no_fallback (s : AppState) (msg : String)
    (hprompt : jsTrim s.prompt ≠ "") :
    (genFailure msg (genClick s)).stage = PipelineStage.ERROR
    ∧ (genFailure msg (genClick s)).pendingGen = false
    ∧ (genFailure msg (genClick s)).error = some msg
    ∧ (strContains msg "Requested entity was not found" = true →
        (genFailure msg (genClick s)).hasApiKey = false) := by
  unfold genClick genFailure
  rw [if_neg hprompt]
  by_cases h : strContains msg "Requested entity was not found" = true <;>
    simp [h]

/-- Witness for the amended C4 at the concrete unavailability message. -/
theorem generation_failure_no_fallback_witness :
    (genFailure "Imagen quota exceeded" (genClick promptedState)).stage
      = PipelineStage.ERROR
    ∧ (genFailure "Imagen quota exceeded" (genClick promptedState)).error
      = some "Imagen quota exceeded" := by
  have h := generation_failure_no_fallback promptedState "Imagen quota exceeded"
    (by decide)
  exact ⟨h.1, h.2.2.1⟩

/--
Claim C7.  When the service does not answer within the 300000 ms abort
window, the awaited `fetch` rejects with `AbortError`, which
`generate3DFromImage` converts into the distinct timeout message; a plain
transport failure instead propagates with its own message, so the two
failure kinds remain distinguishable.
-/
theorem reconstruction_timeout_distinct (delayMs : ℕ) (behaviour : FetchOutcome)
    (pmsg amsg : String) (h : reconstructionTimeoutMs < delayMs) :
    generate3DFromImage pmsg amsg (fetchWithTimeout delayMs behaviour)
      = .error timeoutErrorMessage
    ∧ (∀ m, generate3DFromImage pmsg amsg (.networkError m) = .error m)
    ∧ timeoutErrorMessage ≠ "Failed to fetch" := by
  refine ⟨?_, fun m => rfl, by decide⟩
  unfold fetchWithTimeout
  rw [if_pos h]
  rfl

/-- Witness for C7: a server that would take 300001 ms. -/
theorem reconstruction_timeout_distinct_witness :
    generate3DFromImage "parse failed" "decode failed"
        (fetchWithTimeout 300001 (.networkError "Failed to fetch"))
      = .error timeoutErrorMessage
    ∧ timeoutErrorMessage ≠ "Failed to fetch" := by
  have h := reconstruction_timeout_distinct 300001 (.networkError "Failed to fetch")
    "parse failed" "decode failed" (by decide)
  exact ⟨h.1, h.2.2⟩

/--
Claim C10.  Triggering generation with a blank (empty or whitespace-only)
prompt is a no-op: the guard returns before any state write or network
call, leaving the whole pipeline state — stage, image, model URL, error,
progress, pending requests — unchanged.
-/
theorem blank_prompt_generate_noop (s : AppState) (h : jsTrim s.prompt = "") :
    genClick s = s := by
  unfold genClick
  rw [if_pos h]

/-- Witness for C10 at a whitespace-only prompt. -/
theorem blank_prompt_generate_noop_witness :
    genClick { initialState with prompt := "   " }
      = { initialState with prompt := "   " } :=
  blank_prompt_generate_noop { initialState with prompt := "   " } (by decide)

/--
Claim C8.  The mixed-content flag is computed exactly from the triple
(page host, page protocol, configured endpoint): it is set iff the host is
neither `localhost` nor `127.0.0.1`, the page is `https:`, and the
trimmed, lower-cased endpoint starts with `http://` — no request attempt
is involved.  And when the flag is set, a generic fetch failure surfaces
as the dedicated banner text rather than the raw transport message.
-/
theorem mixed_content_flag_exact (host protocol url : String) (s : AppState)
    (msg : String) (hmc : s.isMixedContent = true)
    (hfetch : strContains msg "Failed to fetch" = true) :
    (computeIsMixedContent host protocol url = true ↔
      (host ≠ "localhost" ∧ host ≠ "127.0.0.1" ∧ protocol = "https:"
        ∧ listStartsWith (jsToLower (jsTrim url)).data "http://".data = true))
    ∧ (convFailure msg s).error = some mixedContentBannerMsg
    ∧ (convFailure msg s).stage = PipelineStage.ERROR
    ∧ mixedContentBannerMsg ≠ "Failed to fetch" := by
  refine ⟨?_, ?_, ?_, by decide⟩
  · unfold computeIsMixedContent
    simp only [Bool.and_eq_true, Bool.not_eq_true', Bool.or_eq_false_iff,
      decide_eq_false_iff_not, decide_eq_true_eq]
    tauto
  · unfold convFailure
    rw [hmc, hfetch]
    rfl
  · unfold convFailure
    rfl

/-- Witness for C8: an https page on a public host with a plaintext
endpoint, and a generic fetch failure under the flag. -/
theorem mixed_content_flag_exact_witness :
    computeIsMixedContent "example.com" "https:" "  HTTP://34.9.141.8:8000/predict " = true
    ∧ (convFailure "TypeError: Failed to fetch"
        { initialState with isMixedContent := true }).error = some mixedContentBannerMsg
    ∧ mixedContentBannerMsg ≠ "Failed to fetch" := by
  have h := mixed_content_flag_exact "example.com" "https:"
    "  HTTP://34.9.141.8:8000/predict " { initialState with isMixedContent := true }
    "TypeError: Failed to fetch" rfl (by decide)
  exact ⟨h.1.mpr (by refine ⟨by decide, by decide, rfl, by decide⟩), h.2.1, h.2.2.2⟩

/--
Claim C9.  The request body built by `generate3DFromImage` always carries
the literal seed 42 — the seed is not an input of the operation — and the
body is a function of the image bytes alone (given the fixed canvas
helpers), so equal images give identical request bodies.
-/
theorem reconstruction_seed_constant (resizeImage : String → ℕ → ℕ → String)
    (createWhiteMask : ℕ → ℕ → String) (img img2 : String) :
    (buildReconstructionBody resizeImage createWhiteMask img).getField "seed"
      = some (Json.num 42)
    ∧ (img = img2 →
        buildReconstructionBody resizeImage createWhiteMask img
          = buildReconstructionBody resizeImage createWhiteMask img2) := by
  constructor
  · rfl
  · intro h
    rw [h]

/-- Witness for C9 at concrete helpers and image strings. -/
theorem reconstruction_seed_constant_witness :
    (buildReconstructionBody (fun s _ _ => s) (fun _ _ => "mask") "imgdata").getField "seed"
      = some (Json.num 42)
    ∧ buildReconstructionBody (fun s _ _ => s) (fun _ _ => "mask") "imgdata"
        = buildReconstructionBody (fun s _ _ => s) (fun _ _ => "mask") "imgdata" := by
  have h := reconstruction_seed_constant (fun s _ _ => s) (fun _ _ => "mask")
    "imgdata" "imgdata"
  exact ⟨h.1, h.2 rfl⟩

/--
Claim C5.  For every byte sequence `x`, decoding a success `ply` field
that is the transport encoding of `x` — bare, or carrying a data-URI head,
with whitespace interleaved in the payload — yields exactly the bytes of
`x`, with the exact original length; and a successful conversion lands the
pipeline in `Complete`.
-/
theorem ply_decode_exact (x : List ℕ) (p' : List Char) (url : String) (s : AppState)
    (hx : ∀ b ∈ x, b < 256)
    (hp : (p'.filter fun c => !isJsWhitespace c) = encodeB64 x)
    (himg : s.generatedImage.isSome = true) :
    decodePlyField (dataUriHead ++ p') = some x
    ∧ decodePlyField p' = some x
    ∧ (decodePlyField (dataUriHead ++ p')).map List.length = some x.length
    ∧ (convSuccess url (convClick s)).stage = PipelineStage.COMPLETE := by
  have hch : ∀ c ∈ p', c ∈ b64PayloadChars ∨ isJsWhitespace c = true := by
    intro c hc
    by_cases hw : isJsWhitespace c = true
    · exact Or.inr hw
    · left
      have hmem : c ∈ p'.filter fun c => !isJsWhitespace c :=
        List.mem_filter.mpr ⟨hc, by simp [hw]⟩
      rw [hp] at hmem
      exact encodeB64_subset x hx c hmem
  have hmain : decodePlyField (dataUriHead ++ p') = some x := by
    unfold decodePlyField cleanBase64
    rw [stripDataUriHead_head p' hch, hp]
    exact atob_encodeB64 x hx
  have hbare : decodePlyField p' = some x := by
    unfold decodePlyField cleanBase64
    rw [stripDataUriHead_bare p' hch, hp]
    exact atob_encodeB64 x hx
  refine ⟨hmain, hbare, by rw [hmain]; rfl, ?_⟩
  obtain ⟨img, himg'⟩ := Option.isSome_iff_exists.mp himg
  unfold convClick
  rw [himg']
  rfl

/--
Witness for C5: the 16-character transport encoding of a concrete 10-byte
payload, with a newline and a space interleaved and a data-URI head
attached, decodes to exactly those 10 bytes, and conversion success lands
in `Complete`.
-/
theorem ply_decode_exact_witness :
    decodePlyField (dataUriHead ++ "UExZ\nCgECA /+AQA==".data)
      = some [80, 76, 89, 10, 1, 2, 3, 255, 128, 64]
    ∧ (decodePlyField (dataUriHead ++ "UExZ\nCgECA /+AQA==".data)).map List.length
      = some 10
    ∧ (convSuccess "blob:demo"
        (convClick { initialState with generatedImage := some sampleImage })).stage
      = PipelineStage.COMPLETE := by
  have h := ply_decode_exact [80, 76, 89, 10, 1, 2, 3, 255, 128, 64]
    "UExZ\nCgECA /+AQA==".data "blob:demo"
    { initialState with generatedImage := some sampleImage }
    (by decide) (by decide) rfl
  exact ⟨h.1, h.2.2.1, h.2.2.2⟩

/-- A valid-JSON error body carrying none of the three message fields,
longer than 200 characters once serialized. -/
def oversizedBody : Json :=
  Json.obj [("a", Json.str ⟨List.replicate 250 'x'⟩)]

/--
Claim C6, counterexample.  For a non-success response whose body is valid
JSON with none of `detail`/`message`/`error`, the source uses
`JSON.stringify` of the whole body with no truncation — not the raw
response text truncated to 200 characters as the claim states: on a
500 response with a 258-character JSON body the extracted message keeps
all 258 characters.
-/
theorem error_detail_not_truncated :
    Json.getField oversizedBody "detail" = none
    ∧ Json.getField oversizedBody "message" = none
    ∧ Json.getField oversizedBody "error" = none
    ∧ extractErrorDetail 500 ⟨some oversizedBody, Json.serialize oversizedBody⟩
        ≠ jsTake 200 (Json.serialize oversizedBody)
    ∧ 200 < (extractErrorDetail 500
        ⟨some oversizedBody, Json.serialize oversizedBody⟩).data.length := by
  refine ⟨rfl, rfl, rfl, ?_, ?_⟩
  · set_option maxRecDepth 10000 in decide
  · set_option maxRecDepth 10000 in decide

/--
Claim C6, amended.  The failure detail of a non-success response is the
JSON body's `detail` field if truthy, else `message`, else `error`
(strings directly, other values stringified); if the body is valid JSON
with none of the three, the whole body is re-serialized untruncated; only
when the body is not valid JSON is the raw response text truncated to 200
characters (or `Status <n>` when empty).  In particular an HTTP 500
response whose JSON body maps `detail` to `GPU OOM` produces exactly the
message `SAM 3D Server Error: GPU OOM`, which contains `GPU OOM`, and the
conversion failure lands in `Error` with that message stored.
-/
theorem error_detail_chain :
    (∀ status j raw, jsTruthy (Json.getField j "detail") = true →
        extractErrorDetail status ⟨some j, raw⟩
          = jsToString ((Json.getField j "detail").getD .null))
    ∧ (∀ status j raw, jsTruthy (Json.getField j "detail") = false →
        jsTruthy (Json.getField j "message") = true →
        extractErrorDetail status ⟨some j, raw⟩
          = jsToString ((Json.getField j "message").getD .null))
    ∧ (∀ status j raw es, jsTruthy (Json.getField j "detail") = false →
        jsTruthy (Json.getField j "message") = false →
        Json.getField j "error" = some (Json.str es) → es ≠ "" →
        extractErrorDetail status ⟨some j, raw⟩ = es)
    ∧ (∀ status j raw, jsTruthy (Json.getField j "detail") = false →
        jsTruthy (Json.getField j "message") = false →
        jsTruthy (Json.getField j "error") = false →
        extractErrorDetail status ⟨some j, raw⟩ = Json.serialize j)
    ∧ (∀ status raw, raw ≠ "" →
        extractErrorDetail status ⟨none, raw⟩ = jsTake 200 raw)
    ∧ (∀ s : AppState,
        generate3DFromImage "parse failed" "decode failed"
          (.resp ⟨false, 500, some (Json.obj [("detail", Json.str "GPU OOM")]),
            "\x7b\"detail\":\"GPU OOM\"\x7d"⟩)
          = .error "SAM 3D Server Error: GPU OOM"
        ∧ strContains "SAM 3D Server Error: GPU OOM" "GPU OOM" = true
        ∧ (convFailure "SAM 3D Server Error: GPU OOM" s).stage = PipelineStage.ERROR
        ∧ (convFailure "SAM 3D Server Error: GPU OOM" s).error
            = some "SAM 3D Server Error: GPU OOM") := by
  refine ⟨?_, ?_, ?_, ?_, ?_, ?_⟩
  · intro status j raw hd
    simp [extractErrorDetail, hd]
  · intro status j raw hd hm
    simp [extractErrorDetail, hd, hm]
  · intro status j raw es hd hm he hes
    simp only [extractErrorDetail, hd, hm, he]
    simp [jsTruthy, hes]
  · intro status j raw hd hm he
    simp [extractErrorDetail, hd, hm, he]
  · intro status raw hraw
    simp [extractErrorDetail, hraw]
  · intro s
    refine ⟨rfl, by decide, ?_, ?_⟩
    · unfold convFailure
      rfl
    · unfold convFailure
      have hc : (strContains "SAM 3D Server Error: GPU OOM" "Failed to fetch"
          || strContains "SAM 3D Server Error: GPU OOM" "NetworkError") = false := by decide
      rw [hc, Bool.and_false]
      rfl

/-- Witness for the amended C6: the chain evaluated at concrete bodies of
each shape. -/
theorem error_detail_chain_witness :
    extractErrorDetail 500 ⟨some (Json.obj [("detail", Json.str "GPU OOM")]), ""⟩
      = "GPU OOM"
    ∧ extractErrorDetail 502
        ⟨some (Json.obj [("message", Json.str "bad gateway")]), ""⟩ = "bad gateway"
    ∧ extractErrorDetail 500 ⟨some (Json.obj [("error", Json.str "oom")]), ""⟩ = "oom"
    ∧ extractErrorDetail 404 ⟨none, "boom"⟩ = jsTake 200 "boom"
    ∧ (convFailure "SAM 3D Server Error: GPU OOM" initialState).error
        = some "SAM 3D Server Error: GPU OOM" := by
  refine ⟨?_, ?_, ?_, ?_, (error_detail_chain.2.2.2.2.2 initialState).2.2.2⟩
  · exact (error_detail_chain.1 500 (Json.obj [("detail", Json.str "GPU OOM")]) ""
      (by decide)).trans rfl
  · exact (error_detail_chain.2.1 502 (Json.obj [("message", Json.str "bad gateway")]) ""
      (by decide) (by decide)).trans rfl
  · exact error_detail_chain.2.2.1 500 (Json.obj [("error", Json.str "oom")]) "" "oom"
      (by decide) (by decide) rfl (by decide)
  · exact error_detail_chain.2.2.2.2.1 404 "boom" (by decide)
